import Mathlib

/-!
Verification of the WAA agent orchestration core (src/waa/agent.py,
src/waa/llm.py, src/waa/tools/fs.py) as a shallow embedding.

Conventions of the embedding:
* Python strings are Lean `String`; string primitives used by the source
  (startswith, endswith, `in`, replace, strip, slicing) are re-implemented
  on `List Char` so that proofs can unfold them.
* `json.loads` is modelled by `jsonLoads`, a strict RFC-8259 style parser
  (plus the Infinity and NaN literals CPython accepts by default); a raised
  JSONDecodeError is modelled by the `none` result.
* The real filesystem is modelled by the `FS` structure; Path.resolve is
  modelled by component normalization (symbolic links are outside the model).
* A raised Python exception crossing a modelled boundary is an `Except`
  or `Option` value, as noted at each definition.
-/

set_option maxRecDepth 100000

namespace Waa

/-! ### String primitives used by the Python source -/

/-- Python-level whitespace used by str.strip (ASCII subset). -/
def isPyWs (c : Char) : Bool :=
  c = ' ' || c = '\t' || c = '\n' || c = '\r' || c = '\x0b' || c = '\x0c'

/-- Model of Python str.strip(). -/
def pyStrip (s : String) : String :=
  ⟨((s.data.dropWhile isPyWs).reverse.dropWhile isPyWs).reverse⟩

/-- Model of Python str.startswith. -/
def strStartsWith (s pre : String) : Bool :=
  pre.data.isPrefixOf s.data

/-- Model of Python str.endswith. -/
def strEndsWith (s post : String) : Bool :=
  post.data.isSuffixOf s.data

/-- Helper for substring containment on character lists. -/
def containsSubstrL (pat : List Char) : List Char → Bool
  | [] => pat.isEmpty
  | c :: rest => pat.isPrefixOf (c :: rest) || containsSubstrL pat rest

/-- Model of the Python membership test pat in s. -/
def containsSubstr (s pat : String) : Bool :=
  containsSubstrL pat.data s.data

/-- Replace all non-overlapping occurrences of pat (left to right), fuel
variant; models str.replace with an empty replacement string. -/
def replaceAllAux (pat : List Char) : Nat → List Char → List Char
  | 0, cs => cs
  | fuel + 1, cs =>
    if pat.isPrefixOf cs ∧ pat ≠ [] then
      replaceAllAux pat fuel (cs.drop pat.length)
    else
      match cs with
      | [] => []
      | c :: rest => c :: replaceAllAux pat (fuel + 1 - 1) rest

/-- Model of Python s.replace(pat, two-quote empty string). -/
def replaceAll (s pat : String) : String :=
  ⟨replaceAllAux pat.data s.data.length s.data⟩

/-! ### JSON values, the result of json.loads -/

/-- JSON value as produced by Python json.loads: null maps to None, numbers
split into int and float exactly as json.loads does (a number lexeme with a
fraction or exponent part, or an Infinity or NaN literal, becomes a float,
stored here by its raw lexeme). -/
inductive Json where
  | null : Json
  | bool (b : Bool) : Json
  | int (n : Int) : Json
  | float (raw : String) : Json
  | str (s : String) : Json
  | arr (elems : List Json) : Json
  | obj (fields : List (String × Json)) : Json
deriving Repr

/-- Python dict lookup d.get(k) on the fields of a parsed object: with
duplicate keys json.loads keeps the last value. -/
def objGet (fields : List (String × Json)) (k : String) : Option Json :=
  match fields with
  | [] => none
  | (k', v) :: rest => match objGet rest k with
    | some w => some w
    | none => if k' = k then some v else none

/-- Python d.get(k) on a Json value known to be an object. -/
def jsonGet (j : Json) (k : String) : Option Json :=
  match j with
  | .obj fields => objGet fields k
  | _ => none

/-- Whether the value is a Python dict (a JSON object). -/
def Json.isObj : Json → Bool
  | .obj _ => true
  | _ => false

/-- Truthiness of a float by its decimal lexeme: any nonzero digit, or an
Infinity or NaN literal, is truthy. Floating-point underflow of tiny
lexemes to 0.0 is outside the model; no claim involves float values. -/
def floatTruthy (raw : String) : Bool :=
  raw.data.any (fun c => (c.isDigit && c ≠ '0') || c = 'I' || c = 'N')

/-- Python truthiness (bool builtin) of a json.loads result. -/
def jsonTruthy : Json → Bool
  | .null => false
  | .bool b => b
  | .int n => n ≠ 0
  | .float raw => floatTruthy raw
  | .str s => ¬ s.isEmpty
  | .arr xs => ¬ xs.isEmpty
  | .obj fields => ¬ fields.isEmpty

/-! ### The JSON parser modelling json.loads -/

/-- JSON whitespace accepted between tokens by json.loads. -/
def isJsonWs (c : Char) : Bool :=
  c = ' ' || c = '\t' || c = '\n' || c = '\r'

def skipWs (cs : List Char) : List Char :=
  cs.dropWhile isJsonWs

def lbrace : Char := Char.ofNat 123
def rbrace : Char := Char.ofNat 125

def hexVal (c : Char) : Option Nat :=
  if c.isDigit then some (c.toNat - '0'.toNat)
  else if 'a' ≤ c ∧ c ≤ 'f' then some (c.toNat - 'a'.toNat + 10)
  else if 'A' ≤ c ∧ c ≤ 'F' then some (c.toNat - 'A'.toNat + 10)
  else none

/-- Parse the body of a JSON string after the opening quote, handling the
escape sequences json.loads accepts and rejecting raw control characters
(json.loads default strict mode). A non-scalar code point from a lone
surrogate escape is mapped through Char.ofNat (outside the model). -/
def parseStringBody : Nat → List Char → Option (List Char × List Char)
  | 0, _ => none
  | _ + 1, [] => none
  | fuel + 1, c :: rest =>
    if c = '"' then some ([], rest)
    else if c = '\\' then
      match rest with
      | [] => none
      | e :: rest' =>
        if e = 'u' then
          match rest' with
          | h1 :: h2 :: h3 :: h4 :: rest2 =>
            match hexVal h1, hexVal h2, hexVal h3, hexVal h4 with
            | some a, some b, some c', some d =>
              (parseStringBody fuel rest2).map
                (fun (body, rem) =>
                  (Char.ofNat (((a * 16 + b) * 16 + c') * 16 + d) :: body, rem))
            | _, _, _, _ => none
          | _ => none
        else
          let dec : Option Char :=
            if e = '"' then some '"'
            else if e = '\\' then some '\\'
            else if e = '/' then some '/'
            else if e = 'b' then some '\x08'
            else if e = 'f' then some '\x0c'
            else if e = 'n' then some '\n'
            else if e = 'r' then some '\r'
            else if e = 't' then some '\t'
            else none
          match dec with
          | some d => (parseStringBody fuel rest').map (fun (body, rem) => (d :: body, rem))
          | none => none
    else if c.toNat < 32 then none
    else (parseStringBody fuel rest).map (fun (body, rem) => (c :: body, rem))

/-- Digits of a nonempty digit run, with the remainder. -/
def takeDigits (cs : List Char) : List Char × List Char :=
  (cs.takeWhile Char.isDigit, cs.dropWhile Char.isDigit)

def digitsToNat (ds : List Char) : Nat :=
  ds.foldl (fun acc c => acc * 10 + (c.toNat - '0'.toNat)) 0

/-- Parse a JSON number per the RFC grammar, classifying as int or float
exactly as json.loads does. Assumes the leading sign (if any) was checked
by the caller to be followed by a digit. -/
def parseNumber (cs : List Char) : Option (Json × List Char) :=
  let (neg, cs1) :=
    match cs with
    | '-' :: rest => (true, rest)
    | _ => (false, cs)
  match cs1 with
  | [] => none
  | c :: _ =>
    if ¬ c.isDigit then none
    else
      let (intDigits, cs2) := takeDigits cs1
      -- json.loads rejects leading zeros
      if intDigits.length > 1 ∧ intDigits.headD '0' = '0' then none
      else
        let (fracDigits, cs3) :=
          match cs2 with
          | '.' :: rest =>
            let (ds, rem) := takeDigits rest
            if ds.isEmpty then ([], cs2) else (ds, rem)
          | _ => ([], cs2)
        let hasFrac := ¬ fracDigits.isEmpty
        -- a dot not followed by a digit is a parse error
        if (match cs2 with | '.' :: _ => !hasFrac | _ => false) = true then none
        else
          let (_eds, cs4, hasExp) :=
            match cs3 with
            | e :: rest =>
              if e = 'e' ∨ e = 'E' then
                match rest with
                | s :: rest' =>
                  if s = '+' ∨ s = '-' then
                    let (ds, rem) := takeDigits rest'
                    if ds.isEmpty then ([], cs3, false) else (ds, rem, true)
                  else
                    let (ds, rem) := takeDigits rest
                    if ds.isEmpty then ([], cs3, false) else (ds, rem, true)
                | [] => ([], cs3, false)
              else ([], cs3, false)
            | [] => ([], cs3, false)
          -- a bare e with no digits is a parse error
          if (match cs3 with | e :: _ => (e = 'e' || e = 'E') && !hasExp | _ => false) = true then
            none
          else
            let consumed := cs.length - cs4.length
            if hasFrac ∨ hasExp then
              some (.float ⟨cs.take consumed⟩, cs4)
            else
              let n : Int := Int.ofNat (digitsToNat intDigits)
              some (.int (if neg then -n else n), cs4)

mutual

/-- Parse one JSON value, leading whitespace allowed. Fuel decreases on
every recursive call; jsonLoads supplies enough fuel for any input. -/
def parseValue : Nat → List Char → Option (Json × List Char)
  | 0, _ => none
  | fuel + 1, cs =>
    match skipWs cs with
    | [] => none
    | c :: rest =>
      if c = '"' then
        (parseStringBody (fuel + 1) rest).map (fun (body, rem) => (.str ⟨body⟩, rem))
      else if c = lbrace then
        match skipWs rest with
        | c' :: rest' =>
          if c' = rbrace then some (.obj [], rest')
          else parseFields fuel (c' :: rest')
        | [] => none
      else if c = '[' then
        match skipWs rest with
        | ']' :: rest' => some (.arr [], rest')
        | cs' => parseElems fuel cs'
      else if c = 't' then
        if ['r', 'u', 'e'].isPrefixOf rest then some (.bool true, rest.drop 3) else none
      else if c = 'f' then
        if ['a', 'l', 's', 'e'].isPrefixOf rest then some (.bool false, rest.drop 4) else none
      else if c = 'n' then
        if ['u', 'l', 'l'].isPrefixOf rest then some (.null, rest.drop 3) else none
      else if c = 'I' then
        if ['n', 'f', 'i', 'n', 'i', 't', 'y'].isPrefixOf rest then
          some (.float "Infinity", rest.drop 7)
        else none
      else if c = 'N' then
        if ['a', 'N'].isPrefixOf rest then some (.float "NaN", rest.drop 2) else none
      else if c = '-' ∧ ['I', 'n', 'f', 'i', 'n', 'i', 't', 'y'].isPrefixOf rest then
        some (.float "-Infinity", rest.drop 8)
      else if c = '-' ∨ c.isDigit then
        parseNumber (c :: rest)
      else none

/-- Parse the elements of a nonempty array, positioned at the first
element. -/
def parseElems : Nat → List Char → Option (Json × List Char)
  | 0, _ => none
  | fuel + 1, cs =>
    match parseValue fuel cs with
    | none => none
    | some (v, rest) =>
      match skipWs rest with
      | ',' :: rest' =>
        match parseElems fuel rest' with
        | some (.arr vs, rem) => some (.arr (v :: vs), rem)
        | _ => none
      | ']' :: rest' => some (.arr [v], rest')
      | _ => none

/-- Parse the fields of a nonempty object, positioned at the first key. -/
def parseFields : Nat → List Char → Option (Json × List Char)
  | 0, _ => none
  | fuel + 1, cs =>
    match skipWs cs with
    | '"' :: rest =>
      match parseStringBody fuel rest with
      | none => none
      | some (key, rest') =>
        match skipWs rest' with
        | ':' :: rest2 =>
          match parseValue fuel rest2 with
          | none => none
          | some (v, rest3) =>
            match skipWs rest3 with
            | ',' :: rest4 =>
              match parseFields fuel rest4 with
              | some (.obj fs, rem) => some (.obj ((⟨key⟩, v) :: fs), rem)
              | _ => none
            | c :: rest4 =>
              if c = rbrace then some (.obj [(⟨key⟩, v)], rest4) else none
            | [] => none
        | _ => none
    | _ => none

end

/-- Model of Python json.loads: parse one value, allow surrounding
whitespace, reject trailing data (the Extra data error). A raised
JSONDecodeError is the none result. -/
def jsonLoads (s : String) : Option Json :=
  match parseValue (s.data.length + 1) s.data with
  | some (j, rest) => if (skipWs rest).isEmpty then some j else none
  | none => none

/-! ### Response parsing (Agent._parse_tool_call, agent.py lines 230-240) -/

/-- Interior slice of a delimiter-wrapped response: the Python expression
response with the first 11 and the last 12 characters removed. -/
def interiorOf (s : String) : String :=
  let mid := s.data.drop 11
  ⟨mid.take (mid.length - 12)⟩

/-- Model of Agent._parse_tool_call: the response must itself start with
the opening delimiter and end with the closing delimiter (no trimming in
the source); the slice between them is fed to json.loads, and a decode
error is caught and mapped to None. -/
def parseToolCall (response : String) : Option Json :=
  if strStartsWith response "<tool_call>" && strEndsWith response "</tool_call>" then
    jsonLoads (interiorOf response)
  else none

/-! ### The filesystem model used by the fs tools -/

/-- The filesystem visible to the tools: files keyed by resolved absolute
path string, plus the set of directories created. -/
structure FS where
  files : List (String × String)
  dirs : List String
deriving Repr, DecidableEq

/-- Split a character list at a separator character. -/
def splitOnChar (sep : Char) : List Char → List (List Char)
  | [] => [[]]
  | c :: rest =>
    let r := splitOnChar sep rest
    if c = sep then [] :: r
    else (c :: r.headD []) :: r.tail

/-- Split a path string into components, collapsing repeated slashes. -/
def splitPath (s : String) : List String :=
  ((splitOnChar '/' s.data).map (fun cs => (⟨cs⟩ : String))).filter (fun c => c ≠ "")

/-- Normalize path components the way Path.resolve does for link-free
paths: single dots vanish and a dot-dot pops the previous component
(at the root it stays at the root). -/
def normalizePath (comps : List String) : List String :=
  comps.foldl
    (fun acc c => if c = "." then acc else if c = ".." then acc.dropLast else acc ++ [c])
    []

/-- Model of (working_dir / path_str).resolve() with working_dir given by
its resolved components; symbolic links are outside the model. -/
def resolvePath (wd : List String) (pathStr : String) : List String :=
  if strStartsWith pathStr "/" then normalizePath (splitPath pathStr)
  else normalizePath (wd ++ splitPath pathStr)

/-- Model of str() on a resolved absolute Path. -/
def pathToString (comps : List String) : String :=
  "/" ++ String.intercalate "/" comps

/-- Whether a resolved path is the directory wd itself or lies under it,
component-wise: the meaning of inside the working directory. -/
def insideDir (wd comps : List String) : Bool :=
  wd.isPrefixOf comps

def addDir (fs : FS) (d : String) : FS :=
  if fs.dirs.contains d then fs else ⟨fs.files, fs.dirs ++ [d]⟩

def ancestorPaths (comps : List String) : List String :=
  (List.range comps.length).map (fun i => pathToString (comps.take (i + 1)))

/-- Model of full_path.parent.mkdir(parents=True, exist_ok=True). -/
def mkdirParents (fs : FS) (comps : List String) : FS :=
  (ancestorPaths comps).foldl addDir fs

/-- Model of full_path.write_text(content). -/
def writeFile (fs : FS) (p content : String) : FS :=
  if fs.files.any (fun kv => kv.1 == p) then
    ⟨fs.files.map (fun kv => if kv.1 == p then (p, content) else kv), fs.dirs⟩
  else ⟨fs.files ++ [(p, content)], fs.dirs⟩

/-! ### The tool contract -/

/-- The primitive argument types of a ToolArgument. -/
inductive ArgType where
  | string : ArgType
  | integer : ArgType
  | boolean : ArgType
  | listOf (elem : ArgType) : ArgType
deriving Repr, DecidableEq

structure ToolArgument where
  name : String
  description : String
  required : Bool
  type : ArgType
deriving Repr

/-- Type conformance of a JSON value against a declared argument type. -/
def typeMatches : ArgType → Json → Bool
  | .string, .str _ => true
  | .integer, .int _ => true
  | .boolean, .bool _ => true
  | .listOf t, .arr xs => xs.all (typeMatches t)
  | _, _ => false

/-- The tool result shape of section 6 of the spec:
ok flag, optional data payload, optional error message. -/
structure ToolResult where
  ok : Bool
  data : Option Json
  error : Option String
deriving Repr

/-- A registered tool: name, ordered schema, and the execute operation.
execute acts on the modelled filesystem; a none result models a Python
exception escaping the tool into the dispatch boundary of the agent. -/
structure Tool where
  name : String
  schema : List ToolArgument
  execute : Json → FS → Option (ToolResult × FS)

/-- Modelled from the spec: ToolRegistry.get_tool (tool.py is not under
src/). Returns the tool registered under the name or fails with a
not-found condition; a non-string name never matches a registration. -/
def getTool (registry : List Tool) (nameJson : Json) : Except String Tool :=
  match nameJson with
  | .str s =>
    match registry.find? (fun t => t.name == s) with
    | some t => .ok t
    | none => .error ("Tool not found: " ++ s)
  | _ => .error "Tool not found"

/-- Modelled from the spec: the required-presence half of
ToolSchema.validate (tool.py is not under src/), walking the schema in
order and failing descriptively on the first violation. -/
def validateFields : List ToolArgument → List (String × Json) → Except String Unit
  | [], _ => .ok ()
  | a :: rest, fields =>
    match objGet fields a.name with
    | none =>
      if a.required then .error ("Missing required argument: " ++ a.name)
      else validateFields rest fields
    | some v =>
      if typeMatches a.type v then validateFields rest fields
      else .error ("Invalid type for argument: " ++ a.name)

/-- Modelled from the spec: ToolSchema.validate on the incoming argument
mapping; a non-mapping argument value is a validation failure. -/
def validateSchema (schema : List ToolArgument) (argsJ : Json) : Except String Unit :=
  match argsJ with
  | .obj fields => validateFields schema fields
  | _ => .error "Arguments must be a mapping"

/-! ### History entries (constructed in agent.py) -/

/-- The four history entry variants, with the fields agent.py passes to
their constructors: the tool name slot receives tool_call.get, so it can
be absent, and the result slot receives None when no result was built. -/
inductive HistoryEntry where
  | systemPrompt (text : String) : HistoryEntry
  | userInstruction (text : String) : HistoryEntry
  | llmResponse (text : String) : HistoryEntry
  | toolCallResult (toolName : Option Json) (args : Json) (result : Option ToolResult) : HistoryEntry
deriving Repr

/-- The result slot of a toolCallResult entry. -/
def HistoryEntry.resultOf : HistoryEntry → Option (Option ToolResult)
  | .toolCallResult _ _ r => some r
  | _ => none

/-! ### Tool dispatch (Agent.execute_tool, agent.py lines 194-228) -/

/-- How an f-string renders the tool name in the error message; the claims
only exercise string names. -/
def pyDisplayName : Json → String
  | .str s => s
  | _ => "<non-string name>"

/-- Model of Agent.execute_tool. Returns the appended history entry, the
filesystem after the call, and the number of tool executions performed
(0 or 1). The branches mirror the source: a missing or falsy tool name
only logs and leaves result as None; a lookup, validation, or execution
exception is caught and becomes an ok-false result. -/
def executeTool (registry : List Tool) (toolCall : Json) (fs : FS) :
    HistoryEntry × FS × Nat :=
  let toolName := jsonGet toolCall "tool"
  let toolArgs := (jsonGet toolCall "arguments").getD (.obj [])
  match toolName with
  | none => (.toolCallResult none toolArgs none, fs, 0)
  | some nj =>
    if ¬ jsonTruthy nj then (.toolCallResult (some nj) toolArgs none, fs, 0)
    else
      match getTool registry nj with
      | .error e =>
        (.toolCallResult (some nj) toolArgs
          (some ⟨false, none, some ("Error executing tool " ++ pyDisplayName nj ++ ": " ++ e)⟩),
         fs, 0)
      | .ok tool =>
        match validateSchema tool.schema toolArgs with
        | .error e =>
          (.toolCallResult (some nj) toolArgs
            (some ⟨false, none, some ("Error executing tool " ++ pyDisplayName nj ++ ": " ++ e)⟩),
           fs, 0)
        | .ok _ =>
          match tool.execute toolArgs fs with
          | some (res, fs') => (.toolCallResult (some nj) toolArgs (some res), fs', 1)
          | none =>
            (.toolCallResult (some nj) toolArgs
              (some ⟨false, none, some ("Error executing tool " ++ pyDisplayName nj ++ ": exception")⟩),
             fs, 1)

/-! ### The agent loop (Agent.run, agent.py lines 242-283) -/

/-- Terminal states of the loop. crashed models the uncaught
AttributeError raised by tool_call.get when json.loads produced a truthy
non-dict value. -/
inductive TerminalReason where
  | explicit (finalAnswer : String) : TerminalReason
  | turnLimit : TerminalReason
  | emptyResponse : TerminalReason
  | crashed : TerminalReason
deriving Repr, DecidableEq

structure RunResult where
  history : List HistoryEntry
  fs : FS
  queries : Nat
  toolExecs : Nat
  reason : TerminalReason

/-- One turn of Agent.run per remaining-turn count: query the model
(generate failures are the none case, ending the run), append the
LLMResponse, check for the termination marker anywhere in the text, then
parse and possibly dispatch a single tool call; a falsy or unparseable
result is recorded as plain reasoning and the loop continues. -/
def runAux (gen : Nat → Option String) (registry : List Tool) :
    Nat → FS → List HistoryEntry → Nat → Nat → Nat → RunResult
  | 0, fs, hist, _, q, e => ⟨hist, fs, q, e, .turnLimit⟩
  | r + 1, fs, hist, i, q, e =>
    match gen i with
    | none => ⟨hist, fs, q + 1, e, .emptyResponse⟩
    | some resp =>
      let hist' := hist ++ [.llmResponse resp]
      if containsSubstr resp "<terminate>" then
        ⟨hist', fs, q + 1, e, .explicit (pyStrip (replaceAll resp "<terminate>"))⟩
      else
        match parseToolCall resp with
        | some j =>
          if jsonTruthy j then
            if j.isObj then
              let (entry, fs', n) := executeTool registry j fs
              runAux gen registry r fs' (hist' ++ [entry]) (i + 1) (q + 1) (e + n)
            else ⟨hist', fs, q + 1, e, .crashed⟩
          else runAux gen registry r fs hist' (i + 1) (q + 1) e
        | none => runAux gen registry r fs hist' (i + 1) (q + 1) e

/-- Model of Agent.run after initialization: the history starts with the
system prompt and the user instruction, and the loop runs for at most
maxTurns turns. -/
def runAgent (gen : Nat → Option String) (registry : List Tool) (maxTurns : Nat)
    (fs0 : FS) (systemPromptText instructionText : String) : RunResult :=
  runAux gen registry maxTurns fs0
    [.systemPrompt systemPromptText, .userInstruction instructionText] 0 0 0

/-! ### The scripted backend (MockLanguageModel, llm.py lines 62-79) -/

/-- The default scripted responses of MockLanguageModel. -/
def mockDefaultResponses : List String :=
  ["<tool_call>\x7b\"tool\": \"fs.read\", \"arguments\": \x7b\"path\": \"package.json\"\x7d\x7d</tool_call>",
   "Let me check the project structure.",
   "<tool_call>\x7b\"tool\": \"tests.run\", \"arguments\": \x7b\"type\": \"all\"\x7d\x7d</tool_call>",
   "<terminate>"]

/-- Model of MockLanguageModel.generate as a function of the invocation
count: responses cycle, and a missing or empty configured list falls back
to the defaults (the responses-or-default expression in the constructor). -/
def mockGen (responses : List String) (i : Nat) : Option String :=
  let eff := if responses.isEmpty then mockDefaultResponses else responses
  some (eff.getD (i % eff.length) "")

/-! ### Configuration (initialize_environment, agent.py lines 40-49) -/

/-- Modelled from the spec: AgentEnvironment.get_config_value (env.py is
not under src/), a read-only lookup into the loaded configuration with a
default for absent keys. -/
def getConfigValue (config : List (String × Json)) (key : String) (dflt : Json) : Json :=
  match config.find? (fun kv => kv.1 == key) with
  | some kv => kv.2
  | none => dflt

/-- The turn bound the agent reads at startup: the max_turns key with
default 50. A non-integer configured value would make range() raise in
Python and is outside the model. -/
def maxTurnsOf (config : List (String × Json)) : Nat :=
  match getConfigValue config "max_turns" (.int 50) with
  | .int n => n.toNat
  | _ => 0

/-! ### Classification of a single response, for counting -/

/-- Whether a response, under the order of checks in Agent.run, reaches
the tool dispatch (and therefore appends a ToolCallResult entry). -/
def respDispatches (resp : String) : Bool :=
  !containsSubstr resp "<terminate>" &&
    (match parseToolCall resp with
     | some j => jsonTruthy j && j.isObj
     | none => false)

/-- The responses the loop consumes, in order, starting at invocation i
with r turns remaining: the same stopping conditions as runAux, computed
from the backend alone. -/
def runTraceAux (gen : Nat → Option String) : Nat → Nat → List String
  | 0, _ => []
  | r + 1, i =>
    match gen i with
    | none => []
    | some resp =>
      if containsSubstr resp "<terminate>" then [resp]
      else
        match parseToolCall resp with
        | some j =>
          if jsonTruthy j then
            if j.isObj then resp :: runTraceAux gen r (i + 1)
            else [resp]
          else resp :: runTraceAux gen r (i + 1)
        | none => resp :: runTraceAux gen r (i + 1)

/-! ### The fs.write tool (FileCreateTool, fs.py lines 9-56) -/

/-- Model of FileCreateTool.execute after the two argument reads: resolve
the joined path, reject when its string form does not start with the
string form of the resolved working directory, then reject a path listed
verbatim in protected_files, otherwise create parent directories and
write the file. -/
def fileCreateRun (wd : List String) (protectedFiles : List String)
    (pathStr content : String) (fs : FS) : ToolResult × FS :=
  let fullPath := resolvePath wd pathStr
  if ¬ strStartsWith (pathToString fullPath) (pathToString wd) then
    (⟨false, none, some ("Path is outside the working directory: " ++ pathStr)⟩, fs)
  else if protectedFiles.contains pathStr then
    (⟨false, none, some ("File is protected and cannot be written to: " ++ pathStr)⟩, fs)
  else
    let fs1 := mkdirParents fs fullPath.dropLast
    let fs2 := writeFile fs1 (pathToString fullPath) content
    (⟨true, some (.obj [("message", .str ("Successfully wrote to file " ++ pathStr ++ "."))]), none⟩,
     fs2)

/-- FileCreateTool.execute on the incoming argument mapping: the two
input subscript reads happen before the try block, so a missing key is a
KeyError propagating to the caller (the none case); a non-string value
raises inside the try block and becomes the failure result. -/
def fileCreateExecute (wd : List String) (protectedFiles : List String)
    (args : Json) (fs : FS) : Option (ToolResult × FS) :=
  match jsonGet args "path", jsonGet args "content" with
  | some (.str p), some (.str c) => some (fileCreateRun wd protectedFiles p c fs)
  | some _, some _ => some (⟨false, none, some "Failed to write file: invalid argument type"⟩, fs)
  | _, _ => none

/-- The fs.write tool with its schema from the FileCreateTool constructor,
holding the environment captured at startup. -/
def fileCreateTool (wd : List String) (protectedFiles : List String) : Tool :=
  { name := "fs.write"
    schema := [⟨"path", "The path of the file to create or overwrite.", true, .string⟩,
               ⟨"content", "The content to write to the file.", true, .string⟩]
    execute := fileCreateExecute wd protectedFiles }

/-- The classification the source actually performs in Agent.run: the
response reaches execute_tool exactly when _parse_tool_call returns a
value that Python considers truthy. -/
def codeClassifiesToolCall (response : String) : Bool :=
  match parseToolCall response with
  | some j => jsonTruthy j
  | none => false

/-- Modelled from the spec for comparison with the code (the refinement
side of the classification claim): a tool invocation is recognized only
when the entire response, after trimming, is wrapped by the delimiter
pair and the text between them parses as a JSON object containing a
tool-name field. -/
def specClassifiesToolCall (response : String) : Bool :=
  let t := pyStrip response
  strStartsWith t "<tool_call>" && strEndsWith t "</tool_call>" &&
    (match jsonLoads (interiorOf t) with
     | some j => j.isObj && (jsonGet j "tool").isSome
     | none => false)

/-- Whether a history entry is a ToolCallResult carrying an ok-false
result together with an error message, the shape the spec promises for
failed dispatches. -/
def carriesOkFalseError (entry : HistoryEntry) : Bool :=
  match entry with
  | .toolCallResult _ _ (some r) => !r.ok && r.error.isSome
  | _ => false

/-- An empty filesystem for concrete scenarios. -/
def fs0 : FS := ⟨[], []⟩

/-- A demonstration environment: an ordinary working directory. -/
def demoWd : List String := ["home", "user", "proj"]

/-- A registry holding the fs.write tool in the demonstration
environment. -/
def demoRegistry : List Tool := [fileCreateTool demoWd []]

/-- A two-entry initial history for concrete run scenarios. -/
def hist2 : List HistoryEntry := [.systemPrompt "sp", .userInstruction "ui"]

/-! ### Step lemmas: one turn of the loop under each classification -/

theorem runAux_step_empty (gen : Nat → Option String) (registry : List Tool)
    (r : Nat) (fs : FS) (hist : List HistoryEntry) (i q e : Nat)
    (h : gen i = none) :
    runAux gen registry (r + 1) fs hist i q e = ⟨hist, fs, q + 1, e, .emptyResponse⟩ := by
  rw [runAux, h]

theorem runAux_step_terminate (gen : Nat → Option String) (registry : List Tool)
    (r : Nat) (fs : FS) (hist : List HistoryEntry) (i q e : Nat) (resp : String)
    (h : gen i = some resp) (ht : containsSubstr resp "<terminate>" = true) :
    runAux gen registry (r + 1) fs hist i q e =
      ⟨hist ++ [.llmResponse resp], fs, q + 1, e,
       .explicit (pyStrip (replaceAll resp "<terminate>"))⟩ := by
  rw [runAux, h]
  simp [ht]

theorem runAux_step_dispatch (gen : Nat → Option String) (registry : List Tool)
    (r : Nat) (fs : FS) (hist : List HistoryEntry) (i q e : Nat) (resp : String) (j : Json)
    (h : gen i = some resp) (ht : containsSubstr resp "<terminate>" = false)
    (hp : parseToolCall resp = some j) (hj : jsonTruthy j = true) (ho : j.isObj = true) :
    runAux gen registry (r + 1) fs hist i q e =
      runAux gen registry r (executeTool registry j fs).2.1
        ((hist ++ [.llmResponse resp]) ++ [(executeTool registry j fs).1]) (i + 1) (q + 1)
        (e + (executeTool registry j fs).2.2) := by
  rw [runAux, h]
  simp [ht, hp, hj, ho]

theorem runAux_step_crash (gen : Nat → Option String) (registry : List Tool)
    (r : Nat) (fs : FS) (hist : List HistoryEntry) (i q e : Nat) (resp : String) (j : Json)
    (h : gen i = some resp) (ht : containsSubstr resp "<terminate>" = false)
    (hp : parseToolCall resp = some j) (hj : jsonTruthy j = true) (ho : j.isObj = false) :
    runAux gen registry (r + 1) fs hist i q e =
      ⟨hist ++ [.llmResponse resp], fs, q + 1, e, .crashed⟩ := by
  rw [runAux, h]
  simp [ht, hp, hj, ho]

theorem runAux_step_falsy (gen : Nat → Option String) (registry : List Tool)
    (r : Nat) (fs : FS) (hist : List HistoryEntry) (i q e : Nat) (resp : String) (j : Json)
    (h : gen i = some resp) (ht : containsSubstr resp "<terminate>" = false)
    (hp : parseToolCall resp = some j) (hj : jsonTruthy j = false) :
    runAux gen registry (r + 1) fs hist i q e =
      runAux gen registry r fs (hist ++ [.llmResponse resp]) (i + 1) (q + 1) e := by
  rw [runAux, h]
  simp [ht, hp, hj]

theorem runAux_step_plain (gen : Nat → Option String) (registry : List Tool)
    (r : Nat) (fs : FS) (hist : List HistoryEntry) (i q e : Nat) (resp : String)
    (h : gen i = some resp) (ht : containsSubstr resp "<terminate>" = false)
    (hp : parseToolCall resp = none) :
    runAux gen registry (r + 1) fs hist i q e =
      runAux gen registry r fs (hist ++ [.llmResponse resp]) (i + 1) (q + 1) e := by
  rw [runAux, h]
  simp [ht, hp]

/-! ### Invariants of the loop -/

theorem executeTool_at_most_one (registry : List Tool) (j : Json) (fs : FS) :
    (executeTool registry j fs).2.2 ≤ 1 := by
  unfold executeTool
  cases hjt : jsonGet j "tool" with
  | none => simp
  | some nj =>
    simp only
    by_cases hj : jsonTruthy nj
    · simp only [hj, not_true, if_neg, ite_false]
      cases hg : getTool registry nj with
      | error e => simp
      | ok tool =>
        simp only
        cases hv : validateSchema tool.schema ((jsonGet j "arguments").getD (Json.obj [])) with
        | error e => simp
        | ok u =>
          simp only
          cases hx : tool.execute ((jsonGet j "arguments").getD (Json.obj [])) fs with
          | none => simp
          | some p => simp
    · simp [hj]

theorem runAux_queries_le (gen : Nat → Option String) (registry : List Tool) :
    ∀ (r : Nat) (fs : FS) (hist : List HistoryEntry) (i q e : Nat),
      (runAux gen registry r fs hist i q e).queries ≤ q + r := by
  intro r
  induction r with
  | zero => intro fs hist i q e; simp [runAux]
  | succ r ih =>
    intro fs hist i q e
    cases hg : gen i with
    | none =>
      rw [runAux_step_empty gen registry r fs hist i q e hg]
      show q + 1 ≤ q + (r + 1)
      omega
    | some resp =>
      cases ht : containsSubstr resp "<terminate>" with
      | true =>
        rw [runAux_step_terminate gen registry r fs hist i q e resp hg ht]
        show q + 1 ≤ q + (r + 1)
        omega
      | false =>
        cases hp : parseToolCall resp with
        | none =>
          rw [runAux_step_plain gen registry r fs hist i q e resp hg ht hp]
          have := ih fs (hist ++ [.llmResponse resp]) (i + 1) (q + 1) e
          omega
        | some j =>
          cases hj : jsonTruthy j with
          | false =>
            rw [runAux_step_falsy gen registry r fs hist i q e resp j hg ht hp hj]
            have := ih fs (hist ++ [.llmResponse resp]) (i + 1) (q + 1) e
            omega
          | true =>
            cases ho : j.isObj with
            | false =>
              rw [runAux_step_crash gen registry r fs hist i q e resp j hg ht hp hj ho]
              show q + 1 ≤ q + (r + 1)
              omega
            | true =>
              rw [runAux_step_dispatch gen registry r fs hist i q e resp j hg ht hp hj ho]
              have := ih (executeTool registry j fs).2.1
                ((hist ++ [.llmResponse resp]) ++ [(executeTool registry j fs).1]) (i + 1) (q + 1)
                (e + (executeTool registry j fs).2.2)
              omega

theorem runAux_execs_le (gen : Nat → Option String) (registry : List Tool) :
    ∀ (r : Nat) (fs : FS) (hist : List HistoryEntry) (i q e : Nat),
      (runAux gen registry r fs hist i q e).toolExecs + q ≤
        (runAux gen registry r fs hist i q e).queries + e := by
  intro r
  induction r with
  | zero =>
    intro fs hist i q e
    show e + q ≤ q + e
    omega
  | succ r ih =>
    intro fs hist i q e
    cases hg : gen i with
    | none =>
      rw [runAux_step_empty gen registry r fs hist i q e hg]
      show e + q ≤ q + 1 + e
      omega
    | some resp =>
      cases ht : containsSubstr resp "<terminate>" with
      | true =>
        rw [runAux_step_terminate gen registry r fs hist i q e resp hg ht]
        show e + q ≤ q + 1 + e
        omega
      | false =>
        cases hp : parseToolCall resp with
        | none =>
          rw [runAux_step_plain gen registry r fs hist i q e resp hg ht hp]
          have := ih fs (hist ++ [.llmResponse resp]) (i + 1) (q + 1) e
          omega
        | some j =>
          cases hj : jsonTruthy j with
          | false =>
            rw [runAux_step_falsy gen registry r fs hist i q e resp j hg ht hp hj]
            have := ih fs (hist ++ [.llmResponse resp]) (i + 1) (q + 1) e
            omega
          | true =>
            cases ho : j.isObj with
            | false =>
              rw [runAux_step_crash gen registry r fs hist i q e resp j hg ht hp hj ho]
              show e + q ≤ q + 1 + e
              omega
            | true =>
              rw [runAux_step_dispatch gen registry r fs hist i q e resp j hg ht hp hj ho]
              have h1 := ih (executeTool registry j fs).2.1
                ((hist ++ [.llmResponse resp]) ++ [(executeTool registry j fs).1]) (i + 1) (q + 1)
                (e + (executeTool registry j fs).2.2)
              have h2 := executeTool_at_most_one registry j fs
              omega

theorem runAux_history_len (gen : Nat → Option String) (registry : List Tool) :
    ∀ (r : Nat) (fs : FS) (hist : List HistoryEntry) (i q e : Nat),
      (runAux gen registry r fs hist i q e).history.length
        = hist.length + (runTraceAux gen r i).length
            + ((runTraceAux gen r i).filter respDispatches).length := by
  intro r
  induction r with
  | zero =>
    intro fs hist i q e
    simp [runAux, runTraceAux]
  | succ r ih =>
    intro fs hist i q e
    cases hg : gen i with
    | none =>
      rw [runAux_step_empty gen registry r fs hist i q e hg]
      simp [runTraceAux, hg]
    | some resp =>
      cases ht : containsSubstr resp "<terminate>" with
      | true =>
        rw [runAux_step_terminate gen registry r fs hist i q e resp hg ht]
        simp [runTraceAux, hg, ht, respDispatches]
      | false =>
        cases hp : parseToolCall resp with
        | none =>
          rw [runAux_step_plain gen registry r fs hist i q e resp hg ht hp]
          rw [ih fs (hist ++ [HistoryEntry.llmResponse resp]) (i + 1) (q + 1) e]
          simp [runTraceAux, hg, ht, hp, respDispatches]
          omega
        | some j =>
          cases hj : jsonTruthy j with
          | false =>
            rw [runAux_step_falsy gen registry r fs hist i q e resp j hg ht hp hj]
            rw [ih fs (hist ++ [HistoryEntry.llmResponse resp]) (i + 1) (q + 1) e]
            simp [runTraceAux, hg, ht, hp, hj, respDispatches]
            omega
          | true =>
            cases ho : j.isObj with
            | false =>
              rw [runAux_step_crash gen registry r fs hist i q e resp j hg ht hp hj ho]
              simp [runTraceAux, hg, ht, hp, hj, ho, respDispatches]
            | true =>
              rw [runAux_step_dispatch gen registry r fs hist i q e resp j hg ht hp hj ho]
              rw [ih (executeTool registry j fs).2.1
                ((hist ++ [HistoryEntry.llmResponse resp]) ++ [(executeTool registry j fs).1])
                (i + 1) (q + 1) (e + (executeTool registry j fs).2.2)]
              simp [runTraceAux, hg, ht, hp, hj, ho, respDispatches]
              omega

/-! ### Concrete scenario inputs -/

/-- A syntactically valid tool call block for fs.read. -/
def blockA : String :=
  "<tool_call>\x7b\"tool\": \"fs.read\", \"arguments\": \x7b\"path\": \"a\"\x7d\x7d</tool_call>"

/-- A syntactically valid tool call block for fs.write. -/
def blockB : String :=
  "<tool_call>\x7b\"tool\": \"fs.write\", \"arguments\": \x7b\"path\": \"b\", \"content\": \"c\"\x7d\x7d</tool_call>"

/-- A response holding a well-formed truthy tool call block whose argument
text also contains the termination marker. -/
def respBoth : String :=
  "<tool_call>\x7b\"tool\": \"fs.read\", \"arguments\": \x7b\"path\": \"<terminate>\"\x7d\x7d</tool_call>"

/-- A wrapped tool call whose JSON object lacks the tool-name field. -/
def respMissingName : String :=
  "<tool_call>\x7b\"arguments\": \x7b\x7d\x7d</tool_call>"

/-! ### Claim C1 -/

/-- C1, counterexample. Each of the two blocks alone is a syntactically
valid tool call, and their concatenation contains no termination marker,
yet the run executes zero tool calls on that response, not exactly one as
the claim states: the interior of the concatenation is not valid JSON, so
the parser rejects the whole response. -/
theorem c1_counterexample :
    (parseToolCall blockA).isSome = true ∧
    (parseToolCall blockB).isSome = true ∧
    containsSubstr (blockA ++ blockB) "<terminate>" = false ∧
    (runAgent (mockGen [blockA ++ blockB]) demoRegistry 1 fs0 "sp" "ui").toolExecs ≠ 1 := by
  refine ⟨rfl, rfl, rfl, ?_⟩
  have h : (runAgent (mockGen [blockA ++ blockB]) demoRegistry 1 fs0 "sp" "ui").toolExecs = 0 :=
    rfl
  omega

/-- C1, amended. A response embedding two syntactically valid tool call
blocks is not recognized as a tool call at all, so zero tools execute that
turn; and in general no model response ever leads to more than one tool
execution: each dispatch performs at most one execution, and over a whole
run the number of executions never exceeds the number of model queries. -/
theorem c1_amended :
    parseToolCall (blockA ++ blockB) = none ∧
    (runAgent (mockGen [blockA ++ blockB]) demoRegistry 1 fs0 "sp" "ui").toolExecs = 0 ∧
    (∀ (registry : List Tool) (j : Json) (fs : FS), (executeTool registry j fs).2.2 ≤ 1) ∧
    (∀ (gen : Nat → Option String) (registry : List Tool) (maxTurns : Nat) (fsa : FS)
       (sp ui : String),
      (runAgent gen registry maxTurns fsa sp ui).toolExecs
        ≤ (runAgent gen registry maxTurns fsa sp ui).queries) := by
  refine ⟨rfl, rfl, executeTool_at_most_one, ?_⟩
  intro gen registry maxTurns fsa sp ui
  have h := runAux_execs_le gen registry maxTurns fsa
    [.systemPrompt sp, .userInstruction ui] 0 0 0
  unfold runAgent
  omega

/-! ### Claim C2 -/

/-- C2, counterexample. The response consisting of a valid wrapped tool
call followed by a single newline is, after trimming, wrapped by the
delimiter pair with a well-formed JSON object holding a tool-name field,
so the claim classifies it as a tool invocation; the code does not, since
_parse_tool_call never trims. -/
theorem c2_counterexample :
    specClassifiesToolCall (blockA ++ "\n") = true ∧
    codeClassifiesToolCall (blockA ++ "\n") = false := by
  exact ⟨rfl, rfl⟩

/-- C2, amended. A response is classified as a tool invocation if and only
if the untrimmed response itself starts with the opening delimiter and
ends with the closing delimiter and the text between them parses as JSON
to a value Python considers truthy; no tool-name field is required. -/
theorem c2_amended :
    ∀ response : String,
      codeClassifiesToolCall response = true ↔
        (strStartsWith response "<tool_call>" = true ∧
         strEndsWith response "</tool_call>" = true ∧
         ∃ j, jsonLoads (interiorOf response) = some j ∧ jsonTruthy j = true) := by
  intro response
  unfold codeClassifiesToolCall parseToolCall
  by_cases h : (strStartsWith response "<tool_call>" && strEndsWith response "</tool_call>") = true
  · rw [if_pos h]
    rw [Bool.and_eq_true] at h
    cases hj : jsonLoads (interiorOf response) with
    | none => simp [hj]
    | some j => simp [hj, h.1, h.2]
  · rw [if_neg h]
    rw [Bool.and_eq_true] at h
    simp only [not_and] at h
    constructor
    · intro hfalse
      exact absurd hfalse (by simp)
    · rintro ⟨h1, h2, -⟩
      exact absurd h2 (h h1)

/-! ### Claim C3 -/

/-- C3, confirmed. Termination is recognized by the presence of the
termination delimiter anywhere in the response text, and this check runs
before the tool-call check: any response containing the marker ends the
run that turn with an explicit terminal state, appending only the raw
response to the history, leaving the filesystem and the tool execution
count untouched, whatever tool call text the response also carries. -/
theorem c3_terminate_precedence :
    ∀ (gen : Nat → Option String) (registry : List Tool) (r : Nat) (fs : FS)
      (hist : List HistoryEntry) (i q e : Nat) (resp : String),
      gen i = some resp → containsSubstr resp "<terminate>" = true →
      runAux gen registry (r + 1) fs hist i q e =
        ⟨hist ++ [.llmResponse resp], fs, q + 1, e,
         .explicit (pyStrip (replaceAll resp "<terminate>"))⟩ := by
  intro gen registry r fs hist i q e resp hg ht
  exact runAux_step_terminate gen registry r fs hist i q e resp hg ht

/-- C3, witness: a response holding both a well-formed truthy tool call
block and the termination marker is treated as termination, with no tool
execution that turn. -/
theorem c3_witness :
    mockGen [respBoth] 0 = some respBoth ∧
    containsSubstr respBoth "<terminate>" = true ∧
    (parseToolCall respBoth).isSome = true ∧
    runAux (mockGen [respBoth]) demoRegistry 1 fs0 hist2 0 0 0 =
      ⟨hist2 ++ [.llmResponse respBoth], fs0, 1, 0,
       .explicit (pyStrip (replaceAll respBoth "<terminate>"))⟩ :=
  ⟨rfl, by decide, rfl,
   c3_terminate_precedence (mockGen [respBoth]) demoRegistry 0 fs0 hist2 0 0 0 respBoth rfl
     (by decide)⟩

/-! ### Claim C5 -/

/-- C5, confirmed. When a response signals termination, the final answer
is the response with every occurrence of the opening termination delimiter
removed and the result trimmed, the run ends that turn, and no tool
executes that turn. -/
theorem c5_final_answer :
    ∀ (gen : Nat → Option String) (registry : List Tool) (r : Nat) (fs : FS)
      (hist : List HistoryEntry) (i q e : Nat) (resp : String),
      gen i = some resp → containsSubstr resp "<terminate>" = true →
      (runAux gen registry (r + 1) fs hist i q e).reason
          = .explicit (pyStrip (replaceAll resp "<terminate>")) ∧
      (runAux gen registry (r + 1) fs hist i q e).toolExecs = e ∧
      (runAux gen registry (r + 1) fs hist i q e).fs = fs := by
  intro gen registry r fs hist i q e resp hg ht
  rw [runAux_step_terminate gen registry r fs hist i q e resp hg ht]
  exact ⟨rfl, rfl, rfl⟩

/-- C5, witness: the scripted response of the termination scenario ends
the run with final answer Done. and no tool execution. -/
theorem c5_witness :
    mockGen ["<terminate>Done."] 0 = some "<terminate>Done." ∧
    containsSubstr "<terminate>Done." "<terminate>" = true ∧
    (runAgent (mockGen ["<terminate>Done."]) demoRegistry 5 fs0 "sp" "ui").reason
      = .explicit "Done." ∧
    (runAgent (mockGen ["<terminate>Done."]) demoRegistry 5 fs0 "sp" "ui").toolExecs = 0 := by
  have h := c5_final_answer (mockGen ["<terminate>Done."]) demoRegistry 4 fs0
    [.systemPrompt "sp", .userInstruction "ui"] 0 0 0 "<terminate>Done." rfl (by decide)
  exact ⟨rfl, by decide, h.1.trans (by rfl), h.2.1⟩

/-! ### Claim C4 -/

/-- Wrapping any string in the tool call delimiters and parsing recovers
exactly json.loads of that string: the guards hold by construction and the
slice recovers the wrapped text. -/
theorem parseToolCall_wrap (s : String) :
    parseToolCall ("<tool_call>" ++ s ++ "</tool_call>") = jsonLoads s := by
  have hdata : ("<tool_call>" ++ s ++ "</tool_call>").data
      = "<tool_call>".data ++ (s.data ++ "</tool_call>".data) := by
    rw [show ("<tool_call>" ++ s ++ "</tool_call>").data
        = ("<tool_call>".data ++ s.data) ++ "</tool_call>".data from rfl]
    exact List.append_assoc _ _ _
  have hpre : strStartsWith ("<tool_call>" ++ s ++ "</tool_call>") "<tool_call>" = true := by
    unfold strStartsWith
    rw [hdata, List.isPrefixOf_iff_prefix]
    exact List.prefix_append _ _
  have hsuf : strEndsWith ("<tool_call>" ++ s ++ "</tool_call>") "</tool_call>" = true := by
    unfold strEndsWith
    rw [List.isSuffixOf_iff_suffix]
    rw [show ("<tool_call>" ++ s ++ "</tool_call>").data
        = ("<tool_call>".data ++ s.data) ++ "</tool_call>".data from rfl]
    exact List.suffix_append _ _
  have hint : interiorOf ("<tool_call>" ++ s ++ "</tool_call>") = s := by
    show ⟨List.take ((("<tool_call>" ++ s ++ "</tool_call>").data.drop 11).length - 12)
        (("<tool_call>" ++ s ++ "</tool_call>").data.drop 11)⟩ = s
    rw [hdata]
    rw [show (11 : Nat) = ("<tool_call>".data).length from rfl]
    rw [List.drop_left]
    have hlen : (s.data ++ "</tool_call>".data).length - 12 = s.data.length := by
      simp [List.length_append]
    rw [hlen]
    rw [show s.data.length = (s.data).length from rfl, List.take_left]
  unfold parseToolCall
  rw [hpre, hsuf, hint]
  simp

/-- C4, counterexample. The string between valid delimiters here is the
termination marker itself: it is not well-formed JSON, yet the loop does
not record the turn as plain reasoning — it treats the response as
termination and stops, while an equally plain one-turn run continues to
the turn limit. -/
theorem c4_counterexample :
    jsonLoads "<terminate>" = none ∧
    strStartsWith "<tool_call><terminate></tool_call>" "<tool_call>" = true ∧
    strEndsWith "<tool_call><terminate></tool_call>" "</tool_call>" = true ∧
    (runAgent (mockGen ["<tool_call><terminate></tool_call>"]) demoRegistry 1 fs0 "sp" "ui").reason
      = .explicit "<tool_call></tool_call>" ∧
    (runAgent (mockGen ["hello"]) demoRegistry 1 fs0 "sp" "ui").reason = .turnLimit := by
  exact ⟨rfl, rfl, rfl, rfl, rfl⟩

/-- C4, amended. For every string between valid delimiters that is not
well-formed JSON, the parser classifies the response as plain text and
never raises; and provided the wrapped text does not contain the
termination delimiter, the loop records the turn as plain reasoning —
appending only the raw response, executing nothing — and proceeds to the
next turn. -/
theorem c4_amended :
    ∀ s : String, jsonLoads s = none →
      parseToolCall ("<tool_call>" ++ s ++ "</tool_call>") = none ∧
      (∀ (gen : Nat → Option String) (registry : List Tool) (r : Nat) (fs : FS)
         (hist : List HistoryEntry) (i q e : Nat),
        gen i = some ("<tool_call>" ++ s ++ "</tool_call>") →
        containsSubstr ("<tool_call>" ++ s ++ "</tool_call>") "<terminate>" = false →
        runAux gen registry (r + 1) fs hist i q e =
          runAux gen registry r fs
            (hist ++ [.llmResponse ("<tool_call>" ++ s ++ "</tool_call>")]) (i + 1) (q + 1) e) := by
  intro s hnone
  have hw := parseToolCall_wrap s
  rw [hnone] at hw
  exact ⟨hw, fun gen registry r fs hist i q e hg ht =>
    runAux_step_plain gen registry r fs hist i q e _ hg ht hw⟩

/-- C4, witness: a wrapped non-JSON string without the termination marker
is classified as plain text and the turn proceeds, recording only the raw
response. -/
theorem c4_witness :
    jsonLoads "not json" = none ∧
    parseToolCall ("<tool_call>" ++ "not json" ++ "</tool_call>") = none ∧
    containsSubstr ("<tool_call>" ++ "not json" ++ "</tool_call>") "<terminate>" = false ∧
    runAux (mockGen ["<tool_call>not json</tool_call>"]) demoRegistry 1 fs0 hist2 0 0 0 =
      runAux (mockGen ["<tool_call>not json</tool_call>"]) demoRegistry 0 fs0
        (hist2 ++ [.llmResponse "<tool_call>not json</tool_call>"]) 1 1 0 := by
  refine ⟨rfl, (c4_amended "not json" rfl).1, by decide, ?_⟩
  exact (c4_amended "not json" rfl).2 (mockGen ["<tool_call>not json</tool_call>"]) demoRegistry 0
    fs0 hist2 0 0 0 rfl (by decide)

/-! ### Claim C6 -/

/-- C6, counterexample. A run of one turn whose scripted response is plain
text: one completed turn produced a model response and the run did not end
via empty response, so the claimed formula demands history length
2 plus 2 times 1 equals 4, but the history holds 3 entries (system prompt,
instruction, response) since a plain text turn appends no tool entry. -/
theorem c6_counterexample :
    (runTraceAux (mockGen ["hello"]) 1 0).length = 1 ∧
    (runAgent (mockGen ["hello"]) demoRegistry 1 fs0 "sp" "ui").reason ≠ .emptyResponse ∧
    (runAgent (mockGen ["hello"]) demoRegistry 1 fs0 "sp" "ui").history.length = 3 ∧
    3 ≠ 2 + 2 * 1 := by
  refine ⟨rfl, ?_, rfl, by omega⟩
  rw [show (runAgent (mockGen ["hello"]) demoRegistry 1 fs0 "sp" "ui").reason
      = .turnLimit from rfl]
  decide

/-- C6, amended. After any run the history length equals 2 (system prompt
and user instruction) plus the number of completed turns that produced a
model response plus the number of those turns that reached tool dispatch
(each dispatch turn appends both the response and a ToolCallResult entry;
termination, crash and plain text turns append only the response; a turn
ended by a generate failure appends nothing). -/
theorem c6_amended :
    ∀ (gen : Nat → Option String) (registry : List Tool) (maxTurns : Nat) (fsa : FS)
      (sp ui : String),
      (runAgent gen registry maxTurns fsa sp ui).history.length
        = 2 + (runTraceAux gen maxTurns 0).length
            + ((runTraceAux gen maxTurns 0).filter respDispatches).length := by
  intro gen registry maxTurns fsa sp ui
  have h := runAux_history_len gen registry maxTurns fsa
    [.systemPrompt sp, .userInstruction ui] 0 0 0
  unfold runAgent
  rw [h]
  rfl

/-! ### Claim C7 -/

/-- C7, counterexample. A wrapped object without the tool field is
classified as a tool invocation and dispatched, but the appended
ToolCallResult entry carries no result at all (the result slot is None,
the error being only logged), not an ok-false result with an error
message as the claim states. -/
theorem c7_counterexample :
    parseToolCall respMissingName = some (.obj [("arguments", .obj [])]) ∧
    jsonTruthy (.obj [("arguments", .obj [])]) = true ∧
    carriesOkFalseError (executeTool demoRegistry (.obj [("arguments", .obj [])]) fs0).1 = false ∧
    (executeTool demoRegistry (.obj [("arguments", .obj [])]) fs0).1.resultOf = some none := by
  exact ⟨rfl, rfl, rfl, rfl⟩

/-- C7, amended. Within a dispatched turn, a missing tool name is
non-fatal but produces a ToolCallResult entry whose result slot is empty
(the error is only logged); an unregistered tool name or a
schema-validation failure produces a ToolCallResult entry carrying an
ok-false result with a descriptive error message; and in every dispatched
turn the loop proceeds to the next turn. -/
theorem c7_amended :
    (∀ (registry : List Tool) (j : Json) (fs : FS),
      jsonGet j "tool" = none →
      executeTool registry j fs
        = (.toolCallResult none ((jsonGet j "arguments").getD (.obj [])) none, fs, 0)) ∧
    (∀ (registry : List Tool) (j : Json) (fs : FS) (nj : Json) (msg : String),
      jsonGet j "tool" = some nj → jsonTruthy nj = true →
      getTool registry nj = .error msg →
      executeTool registry j fs
        = (.toolCallResult (some nj) ((jsonGet j "arguments").getD (.obj []))
            (some ⟨false, none, some ("Error executing tool " ++ pyDisplayName nj ++ ": " ++ msg)⟩),
           fs, 0)) ∧
    (∀ (registry : List Tool) (j : Json) (fs : FS) (nj : Json) (tool : Tool) (msg : String),
      jsonGet j "tool" = some nj → jsonTruthy nj = true →
      getTool registry nj = .ok tool →
      validateSchema tool.schema ((jsonGet j "arguments").getD (.obj [])) = .error msg →
      executeTool registry j fs
        = (.toolCallResult (some nj) ((jsonGet j "arguments").getD (.obj []))
            (some ⟨false, none, some ("Error executing tool " ++ pyDisplayName nj ++ ": " ++ msg)⟩),
           fs, 0)) ∧
    (∀ (gen : Nat → Option String) (registry : List Tool) (r : Nat) (fs : FS)
       (hist : List HistoryEntry) (i q e : Nat) (resp : String) (j : Json),
      gen i = some resp → containsSubstr resp "<terminate>" = false →
      parseToolCall resp = some j → jsonTruthy j = true → j.isObj = true →
      runAux gen registry (r + 1) fs hist i q e =
        runAux gen registry r (executeTool registry j fs).2.1
          ((hist ++ [.llmResponse resp]) ++ [(executeTool registry j fs).1]) (i + 1) (q + 1)
          (e + (executeTool registry j fs).2.2)) := by
  refine ⟨?_, ?_, ?_, ?_⟩
  · intro registry j fs h
    unfold executeTool
    rw [h]
  · intro registry j fs nj msg h1 h2 h3
    unfold executeTool
    rw [h1]
    simp [h2, h3]
  · intro registry j fs nj tool msg h1 h2 h3 h4
    unfold executeTool
    rw [h1]
    simp [h2, h3, h4]
  · intro gen registry r fs hist i q e resp j hg ht hp hj ho
    exact runAux_step_dispatch gen registry r fs hist i q e resp j hg ht hp hj ho

/-- C7, witness: invoking the unregistered tool name nope produces an
ok-false ToolCallResult entry with a descriptive error and no filesystem
change. -/
theorem c7_witness :
    jsonGet (.obj [("tool", .str "nope"), ("arguments", .obj [])]) "tool" = some (.str "nope") ∧
    jsonTruthy (.str "nope") = true ∧
    getTool demoRegistry (.str "nope") = .error "Tool not found: nope" ∧
    executeTool demoRegistry (.obj [("tool", .str "nope"), ("arguments", .obj [])]) fs0
      = (.toolCallResult (some (.str "nope")) (.obj [])
          (some ⟨false, none, some "Error executing tool nope: Tool not found: nope"⟩),
         fs0, 0) := by
  refine ⟨rfl, rfl, rfl, ?_⟩
  have h := c7_amended.2.1 demoRegistry (.obj [("tool", .str "nope"), ("arguments", .obj [])])
    fs0 (.str "nope") "Tool not found: nope" rfl rfl rfl
  exact h.trans (by rfl)

/-! ### Claim C8 -/

/-- C8, confirmed. Every run performs at most maxTurns model queries,
maxTurns is read from the configuration with default 50, and with
max_turns 3 and a scripted backend returning plain text on every call the
run performs exactly 3 queries and ends in the turn-limit terminal
state. -/
theorem c8_turn_limit :
    (∀ (gen : Nat → Option String) (registry : List Tool) (maxTurns : Nat) (fsa : FS)
       (sp ui : String),
      (runAgent gen registry maxTurns fsa sp ui).queries ≤ maxTurns) ∧
    maxTurnsOf [] = 50 ∧
    maxTurnsOf [("max_turns", .int 3)] = 3 ∧
    (runAgent (mockGen ["Thinking..."]) demoRegistry (maxTurnsOf [("max_turns", .int 3)])
        fs0 "sp" "ui").queries = 3 ∧
    (runAgent (mockGen ["Thinking..."]) demoRegistry (maxTurnsOf [("max_turns", .int 3)])
        fs0 "sp" "ui").reason = .turnLimit := by
  refine ⟨?_, rfl, rfl, rfl, rfl⟩
  intro gen registry maxTurns fsa sp ui
  have h := runAux_queries_le gen registry maxTurns fsa
    [.systemPrompt sp, .userInstruction ui] 0 0 0
  unfold runAgent
  omega

/-! ### Claim C9 -/

/-- C9, counterexample. The path dot-dot-slash-c is listed verbatim in
protected_files, but it resolves outside the working directory slash-a-
slash-b, so the outside-directory check fires first and the returned
error message does not state the file is protected. -/
theorem c9_counterexample :
    (["../c"] : List String).contains "../c" = true ∧
    (fileCreateRun ["a", "b"] ["../c"] "../c" "x" fs0).1.ok = false ∧
    (fileCreateRun ["a", "b"] ["../c"] "../c" "x" fs0).1.error
      = some "Path is outside the working directory: ../c" ∧
    containsSubstr "Path is outside the working directory: ../c" "protected" = false := by
  exact ⟨rfl, rfl, rfl, rfl⟩

/-- C9, amended. A write invocation whose path argument is listed in
protected_files always returns ok false and performs no filesystem
mutation; the error message states the file is protected whenever the
resolved path passes the working-directory startswith check, and otherwise
states the path is outside the working directory. -/
theorem c9_amended :
    ∀ (wd protectedFiles : List String) (pathStr content : String) (fs : FS),
      protectedFiles.contains pathStr = true →
      (fileCreateRun wd protectedFiles pathStr content fs).1.ok = false ∧
      (fileCreateRun wd protectedFiles pathStr content fs).2 = fs ∧
      (strStartsWith (pathToString (resolvePath wd pathStr)) (pathToString wd) = true →
        (fileCreateRun wd protectedFiles pathStr content fs).1.error
          = some ("File is protected and cannot be written to: " ++ pathStr)) := by
  intro wd prot pathStr content fs hmem
  have hmem' : pathStr ∈ prot := by simpa using hmem
  unfold fileCreateRun
  by_cases hpre : strStartsWith (pathToString (resolvePath wd pathStr)) (pathToString wd) = true
  · simp [hpre, hmem']
  · simp [hpre, hmem']

/-- C9, witness: a protected path inside the working directory is refused
with the protection message and the filesystem is unchanged. -/
theorem c9_witness :
    (["notes.txt"] : List String).contains "notes.txt" = true ∧
    strStartsWith (pathToString (resolvePath demoWd "notes.txt")) (pathToString demoWd) = true ∧
    (fileCreateRun demoWd ["notes.txt"] "notes.txt" "x" fs0).1.ok = false ∧
    (fileCreateRun demoWd ["notes.txt"] "notes.txt" "x" fs0).2 = fs0 ∧
    (fileCreateRun demoWd ["notes.txt"] "notes.txt" "x" fs0).1.error
      = some "File is protected and cannot be written to: notes.txt" := by
  have h := c9_amended demoWd ["notes.txt"] "notes.txt" "x" fs0 rfl
  exact ⟨rfl, rfl, h.1, h.2.1, (h.2.2 rfl).trans (by rfl)⟩

/-! ### Claim C10 -/

/-- C10, failing input for the sandbox check. With working directory
slash-a-slash-b, the path dot-dot-slash-bb-slash-f resolves to
slash-a-slash-bb-slash-f, which is neither the working directory nor
under it; yet its string form starts with the string form of the working
directory, so the startswith check passes and the tool writes the file
outside the working directory and reports success, where the claim
demands an outside-directory failure with no mutation. -/
theorem c10_failing_input :
    resolvePath ["a", "b"] "../bb/f" = ["a", "bb", "f"] ∧
    insideDir ["a", "b"] ["a", "bb", "f"] = false ∧
    strStartsWith (pathToString ["a", "bb", "f"]) (pathToString ["a", "b"]) = true ∧
    (fileCreateRun ["a", "b"] [] "../bb/f" "x" fs0).1.ok = true ∧
    (fileCreateRun ["a", "b"] [] "../bb/f" "x" fs0).2.files = [("/a/bb/f", "x")] := by
  exact ⟨rfl, rfl, rfl, rfl, rfl⟩

end Waa
